import Mathlib

/-!
Shallow embedding of the MCP Streamable HTTP transport
(server side: `dist/esm/server/streamableHttp.js`, class `StreamableHTTPServerTransport`;
client side: the CJS client transport, class `StreamableHTTPClientTransport`).

The server handlers are embedded as pure functions from a transport state and an
abstracted HTTP request to a new state plus an ordered trace of observable events
(header writes, body ends, response-map insertions, `onmessage`/`onerror`/`onclose`
callbacks, SSE frame writes).  HTTP response handles are identified by natural
numbers.  JSON parsing and the JSON-RPC schema validator are external
collaborators of the transport; messages are embedded by the only fields the
transport inspects (`method`, `id`, presence of `result`/`error`), and bodies
arrive at the embedding boundary already decoded (a parse failure is one
constructor).  The client SSE codec is embedded on `List Char`, stopping at the
platform `JSON.parse` boundary: the codec's output is the list of `data` strings
it hands to the JSON parser, plus the `lastEventId` it tracks.
-/

namespace MCP

/-- A JSON-RPC request id: a JSON scalar, either a string or a number. -/
inductive RequestId where
  | str (s : String)
  | num (n : Int)
deriving DecidableEq, Repr

/-- JavaScript truthiness test used by `send` (`if (!requestId)`):
`undefined`, the number `0` and the empty string are falsy. -/
def idFalsy : Option RequestId → Bool
  | none => true
  | some (.str s) => s = ""
  | some (.num n) => n = 0

/-- A JSON-RPC message as seen by the transport: only the presence/value of
`method` and `id` and the presence of `result`/`error` are ever inspected
(`'method' in msg`, `'id' in msg`, `'result' in message || 'error' in message`). -/
structure JSONRPCMessage where
  method : Option String
  id : Option RequestId
  hasResult : Bool
  hasError : Bool
deriving DecidableEq, Repr

/-- Source predicate `'method' in msg && 'id' in msg`: the message is a request. -/
def isRequest (m : JSONRPCMessage) : Bool :=
  m.method.isSome && m.id.isSome

/-- Source predicate `'result' in message || 'error' in message`: a response. -/
def isResponse (m : JSONRPCMessage) : Bool :=
  m.hasResult || m.hasError

/-- A message accepted by the external JSON-RPC schema validator
(`JSONRPCMessageSchema.parse`): a request or notification (has `method`, no
`result`/`error`) or a response/error (no `method`, has `id`, exactly one of
`result`/`error`). -/
def schemaOk (m : JSONRPCMessage) : Bool :=
  (m.method.isSome && !m.hasResult && !m.hasError) ||
  (!m.method.isSome && m.id.isSome && (m.hasResult != m.hasError))

/-- Association-list model of the JS `Map` `_sseResponseMapping`
(request id to HTTP response handle). -/
def ResponseMap := List (RequestId × Nat)

instance : DecidableEq ResponseMap := by
  unfold ResponseMap; infer_instance

/-- `Map.prototype.set`: replace in place if the key exists, else append. -/
def mapSet (m : List (RequestId × Nat)) (k : RequestId) (v : Nat) :
    List (RequestId × Nat) :=
  if m.any (fun p => decide (p.1 = k)) then
    m.map (fun p => if p.1 = k then (k, v) else p)
  else
    m ++ [(k, v)]

/-- `Map.prototype.get`. -/
def mapGet (m : List (RequestId × Nat)) (k : RequestId) : Option Nat :=
  (m.find? (fun p => decide (p.1 = k))).map Prod.snd

/-- `Map.prototype.delete`. -/
def mapDelete (m : List (RequestId × Nat)) (k : RequestId) :
    List (RequestId × Nat) :=
  m.filter (fun p => decide (¬ p.1 = k))

/-- State of a `StreamableHTTPServerTransport`
(`_initialized`, `sessionId`, `_sseResponseMapping`). -/
structure ServerState where
  initialized : Bool
  sessionId : Option String
  sseResponseMapping : List (RequestId × Nat)
deriving DecidableEq, Repr

/-- Constructor options: `sessionIdGenerator` returns a session id string or
`undefined`; modelled as the value it returns. -/
structure ServerOptions where
  sessionIdGenerator : Option String
deriving DecidableEq, Repr

/-- Observable events of a server handler, in program order.  `writeHead` and
the two `end` forms record what is written on the HTTP response handle;
`mapInsert` records a `_sseResponseMapping.set`; `onMessage`, `onError`,
`onClose` record callback invocations; `sseWrite` records an SSE frame
(`event: message\ndata: <JSON of m>\n\n`) written by `send`. -/
inductive ServerEvent where
  | writeHead (res : Nat) (status : Nat) (headers : List (String × String))
  | endResponse (res : Nat)
  | endJson (res : Nat) (code : Int) (message : String) (data : Option String)
  | mapInsert (id : RequestId)
  | onMessage (m : JSONRPCMessage)
  | onError (e : String)
  | onClose
  | sseWrite (res : Nat) (m : JSONRPCMessage)
deriving DecidableEq, Repr

/-- The `mcp-session-id` request header as Node delivers it: absent, a single
string, or an array of strings (repeated header). -/
inductive SessionHeader where
  | absent
  | single (s : String)
  | multiple (ss : List String)
deriving DecidableEq, Repr

/-- The POST body at the embedding boundary: `JSON.parse` or
`JSONRPCMessageSchema.parse` threw, or it decoded to a single message, or to an
array of messages. -/
inductive ParsedBody where
  | failure (e : String)
  | single (m : JSONRPCMessage)
  | batch (ms : List JSONRPCMessage)
deriving DecidableEq, Repr

/-- An abstracted HTTP request as the server handlers read it. -/
structure Request where
  accept : Option String
  contentTypeHeader : Option String
  sessionIdHeader : SessionHeader
  body : ParsedBody
deriving DecidableEq, Repr

/-- JavaScript `String.prototype.includes` (substring test). -/
def includesStr (s pat : String) : Bool :=
  decide (List.IsInfix pat.toList s.toList)

/-- Accept-header check of `handlePostRequest`:
`acceptHeader?.includes("application/json") && acceptHeader.includes("text/event-stream")`
(the handler rejects with 406 when this is false). -/
def acceptHeaderOk (req : Request) : Bool :=
  match req.accept with
  | some a => includesStr a "application/json" && includesStr a "text/event-stream"
  | none => false

/-- Content-type check of `handlePostRequest`: `ct && ct.includes("application/json")`
(the handler rejects with 415 when this is false). -/
def contentTypeOk (req : Request) : Bool :=
  match req.contentTypeHeader with
  | some c => includesStr c "application/json"
  | none => false

/-- The message list obtained from the body: an array maps each element through
the schema, a single message becomes a one-element list (`none` = parse threw). -/
def getMessages : ParsedBody → Option (List JSONRPCMessage)
  | .failure _ => none
  | .single m => some [m]
  | .batch ms => some ms

/-- The parse-failure diagnostic carried by a failed body, if any. -/
def parseFailure : ParsedBody → Option String
  | .failure e => some e
  | .single _ => none
  | .batch _ => none

/-- `validateSession(req, res)` of the server transport: returns whether the
session is valid, plus the error response written when it is not.  Mirrors the
source checks in order: not initialized → 400; stateless (no `sessionId`) →
pass; falsy header (`!sessionId`: absent or empty string) → 400; array header →
400; mismatch → 404. -/
def validateSession (st : ServerState) (req : Request) (res : Nat) :
    Bool × List ServerEvent :=
  if !st.initialized then
    (false, [.writeHead res 400 [],
             .endJson res (-32000) "Bad Request: Server not initialized" none])
  else if st.sessionId = none then
    (true, [])
  else
    match req.sessionIdHeader with
    | .absent =>
        (false, [.writeHead res 400 [],
                 .endJson res (-32000) "Bad Request: Mcp-Session-Id header is required" none])
    | .multiple _ =>
        (false, [.writeHead res 400 [],
                 .endJson res (-32000) "Bad Request: Mcp-Session-Id header must be a single value" none])
    | .single s =>
        if s = "" then
          (false, [.writeHead res 400 [],
                   .endJson res (-32000) "Bad Request: Mcp-Session-Id header is required" none])
        else if some s = st.sessionId then
          (true, [])
        else
          (false, [.writeHead res 404 [],
                   .endJson res (-32001) "Session not found" none])

/-- The request ids of the request messages of a batch, in order
(`for (const message of messages) if ('method' in message && 'id' in message)`). -/
def requestIds (ms : List JSONRPCMessage) : List RequestId :=
  (ms.filter isRequest).filterMap (fun m => m.id)

/-- The SSE response headers written in the requests branch of
`handlePostRequest`. -/
def sseHeaders (st : ServerState) : List (String × String) :=
  [("Content-Type", "text/event-stream"),
   ("Cache-Control", "no-cache"),
   ("Connection", "keep-alive")] ++
  (match st.sessionId with
   | some s => [("mcp-session-id", s)]
   | none => [])

/-- `handlePostRequest(req, res, parsedBody)`: validates Accept and
Content-Type, decodes the body, branches on initialization requests, validates
the session, and dispatches the batch (202 for notifications/responses only;
SSE headers plus response-map insertion when requests are present). -/
def handlePostRequest (opts : ServerOptions) (st : ServerState) (req : Request)
    (res : Nat) : ServerState × List ServerEvent :=
  if !acceptHeaderOk req then
    (st, [.writeHead res 406 [],
          .endJson res (-32000)
            "Not Acceptable: Client must accept both application/json and text/event-stream" none])
  else if !contentTypeOk req then
    (st, [.writeHead res 415 [],
          .endJson res (-32000)
            "Unsupported Media Type: Content-Type must be application/json" none])
  else
    match getMessages req.body with
    | none =>
        (st, [.writeHead res 400 [],
              .endJson res (-32700) "Parse error" (parseFailure req.body),
              .onError ((parseFailure req.body).getD "")])
    | some messages =>
        let isInitRequest := messages.any (fun m => m.method = some "initialize")
        if isInitRequest then
          if st.initialized then
            (st, [.writeHead res 400 [],
                  .endJson res (-32600) "Invalid Request: Server already initialized" none])
          else if messages.length > 1 then
            (st, [.writeHead res 400 [],
                  .endJson res (-32600) "Invalid Request: Only one initialization request is allowed" none])
          else
            let sid := opts.sessionIdGenerator
            let headers : List (String × String) :=
              match sid with
              | some s => [("mcp-session-id", s)]
              | none => []
            ({ st with sessionId := sid, initialized := true },
             messages.map .onMessage ++ [.writeHead res 200 headers, .endResponse res])
        else
          let v := validateSession st req res
          if !v.1 then
            (st, v.2)
          else
            let hasRequests := messages.any isRequest
            let hasOnlyNotificationsOrResponses :=
              messages.all (fun m => (m.method.isSome && m.id.isNone) || (m.hasResult || m.hasError))
            if hasOnlyNotificationsOrResponses then
              (st, [.writeHead res 202 [], .endResponse res] ++ messages.map .onMessage)
            else if hasRequests then
              let ids := requestIds messages
              ({ st with
                   sseResponseMapping := ids.foldl (fun mp i => mapSet mp i res) st.sseResponseMapping },
               [.writeHead res 200 (sseHeaders st)] ++ ids.map .mapInsert ++ messages.map .onMessage)
            else
              (st, [])

/-- `close()`: end every response in `_sseResponseMapping`, clear the map,
invoke `onclose`.  Note that neither `_initialized` nor `sessionId` is reset. -/
def close (st : ServerState) : ServerState × List ServerEvent :=
  ({ st with sseResponseMapping := [] },
   st.sseResponseMapping.map (fun p => .endResponse p.2) ++ [.onClose])

/-- `handleDeleteRequest(req, res)`: validate the session, `close()`, respond
200 with an empty body. -/
def handleDeleteRequest (st : ServerState) (req : Request) (res : Nat) :
    ServerState × List ServerEvent :=
  let v := validateSession st req res
  if !v.1 then
    (st, v.2)
  else
    let c := close st
    (c.1, v.2 ++ c.2 ++ [.writeHead res 200 [], .endResponse res])

/-- Errors thrown by server `send`: `"No request ID provided for the message"`
and `"No SSE connection established for request ID: ..."`. -/
inductive SendError where
  | noRequestId
  | noConnection (id : RequestId)
deriving DecidableEq, Repr

/-- Server `send(message, options)`: route an outbound message to the SSE
response registered for its request id.  A response (`result`/`error` present)
routes by its own `id` and closes the stream once no other request still shares
it; otherwise the `relatedRequestId` option routes.  The id check is JavaScript
truthiness (`if (!requestId)`). -/
def send (st : ServerState) (message : JSONRPCMessage)
    (relatedRequestId : Option RequestId) :
    Except SendError (ServerState × List ServerEvent) :=
  let requestId : Option RequestId :=
    if isResponse message then message.id else relatedRequestId
  let shouldCloseConnection := isResponse message
  if idFalsy requestId then
    .error .noRequestId
  else
    match requestId with
    | none => .error .noRequestId
    | some rid =>
        match mapGet st.sseResponseMapping rid with
        | none => .error (.noConnection rid)
        | some sseResponse =>
            if shouldCloseConnection then
              let mp := mapDelete st.sseResponseMapping rid
              let canCloseConnection :=
                !(mp.any (fun p => p.2 = sseResponse && !(decide (p.1 = rid))))
              .ok ({ st with sseResponseMapping := mp },
                [ServerEvent.sseWrite sseResponse message] ++
                  (if canCloseConnection then [ServerEvent.endResponse sseResponse] else []))
            else
              .ok (st, [ServerEvent.sseWrite sseResponse message])

/-- The messages delivered to `onmessage` by a trace, in order. -/
def onMessages (evs : List ServerEvent) : List JSONRPCMessage :=
  evs.filterMap (fun e => match e with | .onMessage m => some m | _ => none)

/-- How many times a trace writes response headers that include
`Content-Type: text/event-stream`. -/
def countSseHeads (evs : List ServerEvent) : Nat :=
  (evs.filter (fun e =>
    match e with
    | .writeHead _ _ hs => hs.any (fun h => decide (h = ("Content-Type", "text/event-stream")))
    | _ => false)).length

/-- The status of the first `writeHead` of a trace, if any. -/
def firstStatus (evs : List ServerEvent) : Option Nat :=
  (evs.findSome? (fun e => match e with | .writeHead _ s _ => some s | _ => none))

/-!
Client transport.  `send` is embedded as a loop over the sequence of HTTP
responses the environment returns for the successive POSTs of the same message
(`fetch` is external).  Each recursive call of the source `send` consumes the
next response.  The auth provider is an external collaborator; `auth i`
tells whether the `i`-th call of the auth flow returns `"AUTHORIZED"`.
-/

/-- What the client reads off one `fetch` response: the status code and the
`mcp-session-id` response header. -/
structure FetchResponse where
  status : Nat
  mcpSessionId : Option String
deriving DecidableEq, Repr

/-- `Response.ok`: status in the range 200-299. -/
def respOk (r : FetchResponse) : Bool :=
  200 ≤ r.status && r.status < 300

/-- Outcome of the client `send` call. -/
inductive ClientSendOutcome where
  | ok
  | unauthorized
  | postError (status : Nat)
  | noResponse
deriving DecidableEq, Repr

/-- Result of the client `send` loop: its outcome, the number of POSTs issued
(the first attempt plus every automatic resend), and the final stored
`_sessionId`. -/
structure ClientSendResult where
  outcome : ClientSendOutcome
  attempts : Nat
  finalSessionId : Option String
deriving DecidableEq, Repr

/-- Client `send(message)` as a loop over the environment's responses.  Each
iteration is one POST: record the `mcp-session-id` header if present; on a
non-ok status, a 401 with an auth provider runs the auth flow and, if it
returns `"AUTHORIZED"`, recursively resends (there is no depth guard in the
source); a failed auth flow throws `UnauthorizedError`; other non-ok statuses
throw.  An ok response completes the call (body handling is separate). -/
def clientSendLoop (hasAuthProvider : Bool) (auth : Nat → Bool) :
    List FetchResponse → Nat → Option String → ClientSendResult
  | [], _, sid => ⟨.noResponse, 0, sid⟩
  | r :: rest, authCalls, sid =>
      let sid' := match r.mcpSessionId with
        | some s => some s
        | none => sid
      if !respOk r then
        if r.status = 401 && hasAuthProvider then
          if auth authCalls then
            let retry := clientSendLoop hasAuthProvider auth rest (authCalls + 1) sid'
            ⟨retry.outcome, retry.attempts + 1, retry.finalSessionId⟩
          else ⟨.unauthorized, 1, sid'⟩
        else ⟨.postError r.status, 1, sid'⟩
      else ⟨.ok, 1, sid'⟩

/-!
SSE codec of the client (`_handleSseStream`), embedded on `List Char`.  The
platform `TextDecoder` sits below this boundary; `JSON.parse` plus the schema
validator sit above it, so the codec output is the list of `data` field values
it would hand to them, plus the `lastEventId` it tracks.
-/

/-- Whitespace removed by JavaScript `String.prototype.trim` (ASCII part). -/
def isWsChar (c : Char) : Bool :=
  c = ' ' || c = '\t' || c = '\n' || c = '\r' || c = '\x0b' || c = '\x0c'

/-- JavaScript `String.prototype.trim`: drop leading and trailing whitespace. -/
def trimChars (l : List Char) : List Char :=
  ((l.dropWhile isWsChar).reverse.dropWhile isWsChar).reverse

/-- Prepend a character to the first segment of a split (used to build splits
front to back). -/
def consHead (c : Char) : List (List Char) → List (List Char)
  | [] => [[c]]
  | s :: ss => (c :: s) :: ss

/-- JavaScript `buffer.split('\n\n')`: greedy left-to-right split on the
two-character event delimiter. -/
def splitEvents : List Char → List (List Char)
  | [] => [[]]
  | [c] => [[c]]
  | c :: d :: rest =>
      if c = '\n' && d = '\n' then [] :: splitEvents rest
      else consHead c (splitEvents (d :: rest))

/-- JavaScript `event.split('\n')`. -/
def splitLines : List Char → List (List Char)
  | [] => [[]]
  | c :: rest =>
      if c = '\n' then [] :: splitLines rest
      else consHead c (splitLines rest)

/-- The `id`/`event`/`data` fields accumulated while scanning one event's
lines (`let id; let eventType; let data;`). -/
structure SseFields where
  id : Option (List Char)
  eventType : Option (List Char)
  data : Option (List Char)
deriving DecidableEq, Repr

/-- One line of the per-event scan: `line.startsWith('id:')` stores
`line.slice(3).trim()`, likewise `event:` with `slice(6)` and `data:` with
`slice(5)`; any other line leaves the fields unchanged. -/
def parseSseLine (f : SseFields) (line : List Char) : SseFields :=
  if List.isPrefixOf "id:".toList line then
    { f with id := some (trimChars (line.drop 3)) }
  else if List.isPrefixOf "event:".toList line then
    { f with eventType := some (trimChars (line.drop 6)) }
  else if List.isPrefixOf "data:".toList line then
    { f with data := some (trimChars (line.drop 5)) }
  else f

/-- Scan all lines of one event. -/
def parseSseLines (lines : List (List Char)) : SseFields :=
  lines.foldl parseSseLine ⟨none, none, none⟩

/-- Codec state: the rolling buffer, the last observed event id
(`_lastEventId`), and the `data` payloads delivered to the JSON parser and
`onmessage` so far. -/
structure SseState where
  buffer : List Char
  lastEventId : Option (List Char)
  delivered : List (List Char)
deriving DecidableEq, Repr

/-- The initial codec state. -/
def initSse : SseState := ⟨[], none, []⟩

/-- Process one complete event: update `_lastEventId` when `id` is truthy
(defined and non-empty), and hand `data` to the JSON parser when `data` is
truthy and the event type is falsy or `"message"`. -/
def processEvent (st : SseState) (event : List Char) : SseState :=
  let f := parseSseLines (splitLines event)
  let st1 :=
    match f.id with
    | some i => if i.isEmpty then st else { st with lastEventId := some i }
    | none => st
  match f.data with
  | some d =>
      if d.isEmpty then st1
      else if (match f.eventType with
               | none => true
               | some e => e.isEmpty || e = "message".toList) then
        { st1 with delivered := st1.delivered ++ [d] }
      else st1
  | none => st1

/-- Feed one chunk to the codec: append to the buffer, split on `'\n\n'`, keep
the last (possibly incomplete) segment as the new buffer, process the rest. -/
def feedChunk (st : SseState) (chunk : List Char) : SseState :=
  let parts := splitEvents (st.buffer ++ chunk)
  let st1 := parts.dropLast.foldl processEvent st
  { st1 with buffer := parts.getLastD [] }

/-- Feed a sequence of chunks. -/
def feedChunks (st : SseState) (chunks : List (List Char)) : SseState :=
  chunks.foldl feedChunk st

/-- The SSE frame the server's `send` writes for a message whose JSON
serialization is `j`: `event: message\ndata: <j>\n\n`. -/
def sseFrame (j : List Char) : List Char :=
  "event: message\ndata: ".toList ++ j ++ "\n\n".toList

/-- Whether a character list contains two consecutive newlines (an event
delimiter). -/
def hasNN : List Char → Bool
  | [] => false
  | [_] => false
  | c :: d :: rest => (c = '\n' && d = '\n') || hasNN (d :: rest)

/-!
Helper lemmas about the association-list model of the response map.
-/

theorem mapGet_none_iff (mp : List (RequestId × Nat)) (k : RequestId) :
    mapGet mp k = none ↔ ∀ p ∈ mp, p.1 ≠ k := by
  simp [mapGet, List.find?_eq_none]

theorem mapSet_of_fresh (mp : List (RequestId × Nat)) (k : RequestId) (v : Nat)
    (h : mapGet mp k = none) : mapSet mp k v = mp ++ [(k, v)] := by
  rw [mapGet_none_iff] at h
  unfold mapSet
  rw [if_neg (by simp only [List.any_eq_true, decide_eq_true_eq]; push_neg; exact h)]

theorem mapGet_append_of_left_none (a b : List (RequestId × Nat)) (k : RequestId)
    (h : mapGet a k = none) : mapGet (a ++ b) k = mapGet b k := by
  induction a with
  | nil => simp
  | cons p a ih =>
      have hp : decide (p.1 = k) = false := by
        simpa using (mapGet_none_iff _ k).mp h p (List.mem_cons_self p a)
      have ha : mapGet a k = none := by
        rw [mapGet_none_iff]
        exact fun q hq => (mapGet_none_iff _ k).mp h q (List.mem_cons_of_mem p hq)
      simp only [List.cons_append, mapGet]
      rw [List.find?_cons_of_neg _ (by simp [hp])]
      exact ih ha

theorem mapGet_map_self (ids : List RequestId) (v : Nat) (k : RequestId)
    (hk : k ∈ ids) : mapGet (ids.map (fun j => (j, v))) k = some v := by
  induction ids with
  | nil => cases hk
  | cons j ids ih =>
      by_cases hj : j = k
      · subst hj
        simp [mapGet, List.find?_cons]
      · rcases List.mem_cons.mp hk with h | h
        · exact absurd h.symm hj
        · simpa [mapGet, List.find?_cons, hj] using ih h

theorem foldl_mapSet_fresh (mp : List (RequestId × Nat)) (ids : List RequestId)
    (v : Nat) (hf : ∀ i ∈ ids, mapGet mp i = none) (hnd : ids.Nodup) :
    ids.foldl (fun m i => mapSet m i v) mp = mp ++ ids.map (fun i => (i, v)) := by
  induction ids generalizing mp with
  | nil => simp
  | cons i ids ih =>
      have hfi : mapGet mp i = none := hf i (List.mem_cons_self i ids)
      have hset := mapSet_of_fresh mp i v hfi
      have hnd' := (List.nodup_cons.mp hnd).2
      have hni := (List.nodup_cons.mp hnd).1
      have hf' : ∀ j ∈ ids, mapGet (mp ++ [(i, v)]) j = none := by
        intro j hj
        rw [mapGet_none_iff]
        intro p hp
        rcases List.mem_append.mp hp with h | h
        · exact (mapGet_none_iff mp j).mp (hf j (List.mem_cons_of_mem i hj)) p h
        · rcases List.mem_singleton.mp h with rfl
          intro he
          have hij : i = j := he
          subst hij
          exact hni hj
      calc (i :: ids).foldl (fun m i => mapSet m i v) mp
      _ = ids.foldl (fun m i => mapSet m i v) (mp ++ [(i, v)]) := by
          rw [List.foldl_cons, hset]
      _ = (mp ++ [(i, v)]) ++ ids.map (fun i => (i, v)) := ih (mp ++ [(i, v)]) hf' hnd'
      _ = mp ++ (i :: ids).map (fun i => (i, v)) := by simp

theorem countSseHeads_append (a b : List ServerEvent) :
    countSseHeads (a ++ b) = countSseHeads a + countSseHeads b := by
  simp [countSseHeads, List.filter_append]

theorem countSseHeads_mapInsert (ids : List RequestId) :
    countSseHeads (ids.map ServerEvent.mapInsert) = 0 := by
  induction ids with
  | nil => rfl
  | cons i t ih => simp only [List.map_cons, countSseHeads, List.filter_cons] at ih ⊢; simp

theorem countSseHeads_onMessage (ms : List JSONRPCMessage) :
    countSseHeads (ms.map ServerEvent.onMessage) = 0 := by
  induction ms with
  | nil => rfl
  | cons m t ih => simp only [List.map_cons, countSseHeads, List.filter_cons] at ih ⊢; simp

theorem onlyNR_false_of_request (ms : List JSONRPCMessage)
    (hreq : ms.any isRequest = true) (hs : ∀ m ∈ ms, schemaOk m = true) :
    ms.all (fun m => (m.method.isSome && m.id.isNone) || (m.hasResult || m.hasError)) = false := by
  rw [List.any_eq_true] at hreq
  obtain ⟨m, hm, hr⟩ := hreq
  have hsm := hs m hm
  apply Bool.eq_false_iff.mpr
  intro hall
  rw [List.all_eq_true] at hall
  have hx := hall m hm
  rcases m with ⟨mth, mid, r, e⟩
  cases mth <;> cases mid <;> simp_all [isRequest, schemaOk]


/-!
Claim theorems: server POST handling, DELETE handling, `send` routing, and the
client's 401 retry loop.
-/

/-- C1 (counterexample): a batch whose single request is an initialize request
does NOT get a `Content-Type: text/event-stream` header nor a `responseMap`
entry, although its message is delivered to `onmessage`: the initialize branch
responds `200` with an empty body and never touches `_sseResponseMapping`.
This refutes the claim's "in particular" clause for initialize requests. -/
theorem initialize_batch_breaks_sse_setup :
    handlePostRequest ⟨some "S1"⟩ ⟨false, none, []⟩
      ⟨some "application/json, text/event-stream", some "application/json", .absent,
       .batch [⟨some "initialize", some (.num 1), false, false⟩]⟩ 7
      = (⟨true, some "S1", []⟩,
         [.onMessage ⟨some "initialize", some (.num 1), false, false⟩,
          .writeHead 7 200 [("mcp-session-id", "S1")], .endResponse 7]) ∧
    countSseHeads
      [.onMessage ⟨some "initialize", some (.num 1), false, false⟩,
       .writeHead 7 200 [("mcp-session-id", "S1")], .endResponse 7] = 0 ∧
    onMessages
      [.onMessage ⟨some "initialize", some (.num 1), false, false⟩,
       .writeHead 7 200 [("mcp-session-id", "S1")], .endResponse 7]
      = [⟨some "initialize", some (.num 1), false, false⟩] ∧
    (⟨true, some "S1", []⟩ : ServerState).sseResponseMapping = [] := by
  refine ⟨by decide, by decide, by decide, rfl⟩

/-- C1 (amended): for a POST batch that contains at least one request and no
initialize message, with valid headers and a valid session, the handler writes
the `Content-Type: text/event-stream` headers exactly once, inserts one
`responseMap` entry per request message (for pairwise distinct, fresh request
ids), and does both before any message is delivered to `onmessage`; the trace
is exactly the header write, then the insertions, then the deliveries. -/
theorem sse_batch_setup_before_onmessage (opts : ServerOptions) (st : ServerState)
    (req : Request) (res : Nat) (ms : List JSONRPCMessage)
    (hacc : acceptHeaderOk req = true) (hct : contentTypeOk req = true)
    (hbody : getMessages req.body = some ms)
    (hnoinit : ms.any (fun m => m.method = some "initialize") = false)
    (hval : validateSession st req res = (true, []))
    (hreq : ms.any isRequest = true)
    (hschema : ∀ m ∈ ms, schemaOk m = true)
    (hfresh : ∀ i ∈ requestIds ms, mapGet st.sseResponseMapping i = none)
    (hnd : (requestIds ms).Nodup) :
    handlePostRequest opts st req res =
      ({ st with sseResponseMapping :=
           st.sseResponseMapping ++ (requestIds ms).map (fun i => (i, res)) },
       [.writeHead res 200 (sseHeaders st)] ++
         (requestIds ms).map .mapInsert ++ ms.map .onMessage) ∧
    countSseHeads (handlePostRequest opts st req res).2 = 1 ∧
    (∀ i ∈ requestIds ms,
      mapGet (handlePostRequest opts st req res).1.sseResponseMapping i = some res) := by
  have honly := onlyNR_false_of_request ms hreq hschema
  have hmain : handlePostRequest opts st req res =
      ({ st with sseResponseMapping :=
           st.sseResponseMapping ++ (requestIds ms).map (fun i => (i, res)) },
       [.writeHead res 200 (sseHeaders st)] ++
         (requestIds ms).map .mapInsert ++ ms.map .onMessage) := by
    unfold handlePostRequest
    rw [hacc, hct, hbody]
    simp only [Option.isSome_some, Bool.not_true, Bool.false_eq_true, if_false,
      Option.some.injEq]
    rw [if_neg (by simp [hnoinit]), hval]
    simp only [Bool.not_true, Bool.false_eq_true, if_false, honly, hreq, if_true]
    rw [foldl_mapSet_fresh st.sseResponseMapping (requestIds ms) res hfresh hnd]
  refine ⟨hmain, ?_, ?_⟩
  · rw [hmain]
    simp only [countSseHeads_append, countSseHeads_mapInsert, countSseHeads_onMessage]
    simp [countSseHeads, sseHeaders]
  · intro i hi
    rw [hmain]
    have hleft : mapGet st.sseResponseMapping i = none := hfresh i hi
    rw [mapGet_append_of_left_none _ _ _ hleft]
    exact mapGet_map_self (requestIds ms) res i hi

/-- C1 (witness for the amended theorem). -/
theorem sse_batch_setup_before_onmessage_witness :
    acceptHeaderOk ⟨some "application/json, text/event-stream", some "application/json",
      .single "S1", .batch [⟨some "ping", some (.num 2), false, false⟩]⟩ = true ∧
    handlePostRequest ⟨some "S1"⟩ ⟨true, some "S1", []⟩
      ⟨some "application/json, text/event-stream", some "application/json",
       .single "S1", .batch [⟨some "ping", some (.num 2), false, false⟩]⟩ 8 =
      ({ (⟨true, some "S1", []⟩ : ServerState) with sseResponseMapping :=
           [] ++ (requestIds [⟨some "ping", some (.num 2), false, false⟩]).map (fun i => (i, 8)) },
       [.writeHead 8 200 (sseHeaders ⟨true, some "S1", []⟩)] ++
         (requestIds [⟨some "ping", some (.num 2), false, false⟩]).map .mapInsert ++
         [⟨some "ping", some (.num 2), false, false⟩].map .onMessage) :=
  ⟨by decide,
   (sse_batch_setup_before_onmessage ⟨some "S1"⟩ ⟨true, some "S1", []⟩
      ⟨some "application/json, text/event-stream", some "application/json",
       .single "S1", .batch [⟨some "ping", some (.num 2), false, false⟩]⟩ 8
      [⟨some "ping", some (.num 2), false, false⟩]
      (by decide) (by decide) rfl (by decide) (by decide) (by decide)
      (by decide) (by decide) (by decide)).1⟩

/-- C2 (counterexample): after a DELETE with the valid session id `"S1"`, the
server does respond 200, end the mapped responses, clear the map and fire
`onclose` - but a subsequent POST carrying `Mcp-Session-Id: S1` is NOT rejected
with 404: `close()` resets neither `_initialized` nor `sessionId`, so the POST
is accepted (202 here). -/
theorem post_after_delete_not_rejected :
    handleDeleteRequest ⟨true, some "S1", [(.num 1, 5)]⟩
      ⟨some "application/json, text/event-stream", some "application/json",
       .single "S1", .batch []⟩ 9
      = (⟨true, some "S1", []⟩,
         [.endResponse 5, .onClose, .writeHead 9 200 [], .endResponse 9]) ∧
    firstStatus
      (handlePostRequest ⟨some "S1"⟩ ⟨true, some "S1", []⟩
        ⟨some "application/json, text/event-stream", some "application/json",
         .single "S1", .batch [⟨some "note", none, false, false⟩]⟩ 10).2
      = some 202 ∧
    some 202 ≠ some (404 : Nat) := by
  refine ⟨by decide, by decide, by decide⟩

/-- C2 (amended): a DELETE carrying the matching `Mcp-Session-Id` makes the
server end every response in `responseMap`, clear the map, invoke `onclose` and
respond 200; but `initialized` and `sessionId` survive, so a subsequent POST
with the same session id still passes session validation (it is not rejected
with 404). -/
theorem delete_closes_but_session_survives (st : ServerState) (req : Request)
    (res : Nat) (S : String)
    (hinit : st.initialized = true) (hsid : st.sessionId = some S)
    (hhdr : req.sessionIdHeader = .single S) (hS : S ≠ "") :
    handleDeleteRequest st req res =
      ({ st with sseResponseMapping := [] },
       st.sseResponseMapping.map (fun p => .endResponse p.2) ++
         [.onClose, .writeHead res 200 [], .endResponse res]) ∧
    validateSession { st with sseResponseMapping := [] } req res = (true, []) := by
  have hv : validateSession st req res = (true, []) := by
    unfold validateSession
    rw [hinit, hhdr, hsid]
    simp [hS]
  constructor
  · unfold handleDeleteRequest
    rw [hv]
    simp [close]
  · unfold validateSession
    simp only [hinit, hhdr, hsid]
    simp [hS]

/-- C2 (witness for the amended theorem). -/
theorem delete_closes_but_session_survives_witness :
    ("S1" : String) ≠ "" ∧
    handleDeleteRequest ⟨true, some "S1", [(.num 1, 5)]⟩
      ⟨some "a", some "b", .single "S1", .batch []⟩ 9 =
      ({ (⟨true, some "S1", [(.num 1, 5)]⟩ : ServerState) with sseResponseMapping := [] },
       ([(.num 1, 5)] : List (RequestId × Nat)).map (fun p => .endResponse p.2) ++
         [.onClose, .writeHead 9 200 [], .endResponse 9]) :=
  ⟨by decide,
   (delete_closes_but_session_survives ⟨true, some "S1", [(.num 1, 5)]⟩
      ⟨some "a", some "b", .single "S1", .batch []⟩ 9 "S1" rfl rfl rfl (by decide)).1⟩

/-- C3 (counterexample): the request id `""` (a legal JSON-RPC string id) can
be in `responseMap`, yet `send` of a response carrying it throws
`"No request ID provided for the message"` and removes nothing: the id check
`if (!requestId)` uses JavaScript truthiness, and `""` is falsy. -/
theorem empty_string_id_not_removed :
    mapGet [(RequestId.str "", 3)] (.str "") = some 3 ∧
    send ⟨true, none, [(.str "", 3)]⟩ ⟨none, some (.str ""), true, false⟩ none
      = .error .noRequestId :=
  ⟨rfl, rfl⟩

/-- C3 (amended): for every truthy request id `rid` in `responseMap`, `send` of
a response whose id is `rid` succeeds, removes `rid` from the map, writes the
SSE frame, and ends the underlying HTTP response exactly when no other id in
the map refers to that same response (a shared multi-request response stays
open until its last reply). -/
theorem send_response_removes_and_ends (st : ServerState) (m : JSONRPCMessage)
    (rid : RequestId) (res : Nat)
    (hresp : isResponse m = true) (hid : m.id = some rid)
    (hfal : idFalsy (some rid) = false)
    (hget : mapGet st.sseResponseMapping rid = some res) :
    ∃ evs,
      send st m none =
        .ok ({ st with sseResponseMapping := mapDelete st.sseResponseMapping rid }, evs) ∧
      mapGet (mapDelete st.sseResponseMapping rid) rid = none ∧
      ServerEvent.sseWrite res m ∈ evs ∧
      (ServerEvent.endResponse res ∈ evs ↔
        ∀ p ∈ st.sseResponseMapping, p.1 ≠ rid → p.2 ≠ res) := by
  have hsend : send st m none =
      .ok ({ st with sseResponseMapping := mapDelete st.sseResponseMapping rid },
        [ServerEvent.sseWrite res m] ++
          (if !((mapDelete st.sseResponseMapping rid).any
                 (fun p => p.2 = res && !(decide (p.1 = rid)))) then
            [ServerEvent.endResponse res] else [])) := by
    unfold send
    rw [hresp, hid]
    simp only [if_true]
    rw [if_neg (by simp [hfal]), hget]
  refine ⟨_, hsend, ?_, ?_, ?_⟩
  · rw [mapGet_none_iff]
    intro p hp
    have := List.of_mem_filter hp
    simpa using this
  · exact List.mem_append_left _ (List.mem_singleton.mpr rfl)
  · constructor
    · intro hmem p hp hne hpr
      rcases List.mem_append.mp hmem with h | h
      · cases List.mem_singleton.mp h
      · by_cases hany : (mapDelete st.sseResponseMapping rid).any
            (fun p => p.2 = res && !(decide (p.1 = rid))) = true
        · rw [hany] at h; cases h
        · have : p ∈ mapDelete st.sseResponseMapping rid := by
            rw [mapDelete, List.mem_filter]
            exact ⟨hp, by simpa using hne⟩
          rw [Bool.not_eq_true, List.any_eq_false] at hany
          have := hany p this
          simp [hpr, hne] at this
    · intro hall
      apply List.mem_append_right
      have hany : (mapDelete st.sseResponseMapping rid).any
          (fun p => p.2 = res && !(decide (p.1 = rid))) = false := by
        rw [List.any_eq_false]
        intro p hp
        rw [mapDelete, List.mem_filter] at hp
        have hne : p.1 ≠ rid := by simpa using hp.2
        have := hall p hp.1 hne
        simp [this, hne]
      rw [hany]
      simp

/-- C3 (witness for the amended theorem). -/
theorem send_response_removes_and_ends_witness :
    isResponse ⟨none, some (.num 1), true, false⟩ = true ∧
    (∃ evs,
      send ⟨true, some "S1", [(.num 1, 7), (.num 2, 7)]⟩
          ⟨none, some (.num 1), true, false⟩ none =
        .ok ({ (⟨true, some "S1", [(.num 1, 7), (.num 2, 7)]⟩ : ServerState) with
                 sseResponseMapping := mapDelete [(.num 1, 7), (.num 2, 7)] (.num 1) }, evs) ∧
      mapGet (mapDelete [(.num 1, 7), (.num 2, 7)] (.num 1)) (.num 1) = none ∧
      ServerEvent.sseWrite 7 ⟨none, some (.num 1), true, false⟩ ∈ evs ∧
      (ServerEvent.endResponse 7 ∈ evs ↔
        ∀ p ∈ ([(.num 1, 7), (.num 2, 7)] : List (RequestId × Nat)),
          p.1 ≠ RequestId.num 1 → p.2 ≠ 7)) :=
  ⟨rfl,
   send_response_removes_and_ends ⟨true, some "S1", [(.num 1, 7), (.num 2, 7)]⟩
     ⟨none, some (.num 1), true, false⟩ (.num 1) 7 rfl rfl (by decide) rfl⟩

/-- C4 (code bug): the request id `0` is present as a routing id and is in
`responseMap`, yet `send` fails with the no-request-id error instead of
routing: the source checks `if (!requestId)`, and the number `0` is falsy in
JavaScript, though JSON-RPC allows it as a request id. -/
theorem zero_id_send_rejected :
    mapGet [(RequestId.num 0, 7)] (.num 0) = some 7 ∧
    send ⟨true, some "S1", [(.num 0, 7)]⟩ ⟨none, some (.num 0), true, false⟩ none
      = .error .noRequestId ∧
    send ⟨true, some "S1", [(.num 0, 7)]⟩ ⟨some "note", none, false, false⟩ (some (.num 0))
      = .error .noRequestId :=
  ⟨rfl, rfl, rfl⟩

/-- C4 (positive part: for truthy ids the claimed error discipline holds):
with no routing id present `send` fails with the no-request-id error, and with
a truthy routing id absent from the map it fails with the no-connection error
naming that id. -/
theorem send_error_discipline (st : ServerState) (m : JSONRPCMessage)
    (hnr : isResponse m = false) :
    send st m none = .error .noRequestId ∧
    (∀ rid, idFalsy (some rid) = false →
      mapGet st.sseResponseMapping rid = none →
      send st m (some rid) = .error (.noConnection rid)) := by
  constructor
  · unfold send
    rw [hnr]
    simp
  · intro rid hfal hget
    unfold send
    rw [hnr]
    simp only [Bool.false_eq_true, if_false]
    rw [if_neg (by simp [hfal]), hget]

/-- C4 (witness for the error-discipline theorem). -/
theorem send_error_discipline_witness :
    isResponse ⟨some "note", none, false, false⟩ = false ∧
    send ⟨true, none, []⟩ ⟨some "note", none, false, false⟩ none = .error .noRequestId :=
  ⟨rfl, (send_error_discipline ⟨true, none, []⟩ ⟨some "note", none, false, false⟩ rfl).1⟩

/-- C5: when the server is already initialized, any POST whose (well-formed)
body contains an initialize message is rejected with 400 and the JSON-RPC
error `-32600` "Invalid Request: Server already initialized"; the state is
unchanged and no `onmessage` fires (the trace has no `onMessage` event). -/
theorem double_initialize_rejected (opts : ServerOptions) (st : ServerState)
    (req : Request) (res : Nat) (ms : List JSONRPCMessage)
    (hacc : acceptHeaderOk req = true) (hct : contentTypeOk req = true)
    (hbody : getMessages req.body = some ms)
    (hini : ms.any (fun m => m.method = some "initialize") = true)
    (hinit : st.initialized = true) :
    handlePostRequest opts st req res =
      (st, [.writeHead res 400 [],
            .endJson res (-32600) "Invalid Request: Server already initialized" none]) := by
  unfold handlePostRequest
  rw [hacc, hct, hbody]
  simp [hini, hinit]

/-- C5 (witness). -/
theorem double_initialize_rejected_witness :
    (⟨true, some "S1", []⟩ : ServerState).initialized = true ∧
    handlePostRequest ⟨some "S1"⟩ ⟨true, some "S1", []⟩
      ⟨some "application/json, text/event-stream", some "application/json",
       .single "S1", .single ⟨some "initialize", some (.num 1), false, false⟩⟩ 9 =
      (⟨true, some "S1", []⟩,
       [.writeHead 9 400 [],
        .endJson 9 (-32600) "Invalid Request: Server already initialized" none]) :=
  ⟨rfl,
   double_initialize_rejected ⟨some "S1"⟩ ⟨true, some "S1", []⟩
     ⟨some "application/json, text/event-stream", some "application/json",
      .single "S1", .single ⟨some "initialize", some (.num 1), false, false⟩⟩ 9
     [⟨some "initialize", some (.num 1), false, false⟩]
     (by decide) (by decide) rfl (by decide) rfl⟩

/-- C6 (counterexample): with an auth provider whose flow always returns
AUTHORIZED and a server that answers 401, 401, 200, the client `send` issues
three POSTs - the second 401 triggers a further automatic retry, because the
source recursion has no depth guard.  The claim allows at most two POSTs
(the original and one resend). -/
theorem second_401_retries_again :
    clientSendLoop true (fun _ => true)
      [⟨401, none⟩, ⟨401, none⟩, ⟨200, none⟩] 0 none = ⟨.ok, 3, none⟩ ∧
    ¬ ((3 : Nat) ≤ 2) := by
  refine ⟨by decide, by decide⟩

/-- C6 (amended): every 401 received with an auth provider runs the auth flow
and, when it returns AUTHORIZED, resends the message - at any retry depth `k`,
not just on the first attempt; retries continue as long as 401s and successful
auth flows continue. -/
theorem auth_retry_unbounded (auth : Nat → Bool) (rest : List FetchResponse)
    (k : Nat) (sid : Option String) (r : FetchResponse)
    (h401 : r.status = 401) (hsid : r.mcpSessionId = none)
    (hauth : auth k = true) :
    clientSendLoop true auth (r :: rest) k sid =
      ⟨(clientSendLoop true auth rest (k + 1) sid).outcome,
       (clientSendLoop true auth rest (k + 1) sid).attempts + 1,
       (clientSendLoop true auth rest (k + 1) sid).finalSessionId⟩ := by
  simp [clientSendLoop, respOk, hsid, h401, hauth]

/-- C6 (witness for the amended theorem, at retry depth 5). -/
theorem auth_retry_unbounded_witness :
    (fun _ : Nat => true) 5 = true ∧
    clientSendLoop true (fun _ => true) [⟨401, none⟩, ⟨200, none⟩] 5 none =
      ⟨(clientSendLoop true (fun _ => true) [⟨200, none⟩] 6 none).outcome,
       (clientSendLoop true (fun _ => true) [⟨200, none⟩] 6 none).attempts + 1,
       (clientSendLoop true (fun _ => true) [⟨200, none⟩] 6 none).finalSessionId⟩ :=
  ⟨rfl,
   auth_retry_unbounded (fun _ => true) [⟨200, none⟩] 5 none ⟨401, none⟩ rfl rfl rfl⟩

/-- C10: a POST whose body is the empty batch `[]`, with valid Accept and
Content-Type headers and a passing session validation, is answered 202 with an
empty body; no `onmessage` fires and the state (sessionId, initialized,
responseMap) is unchanged. -/
theorem empty_batch_accepted (opts : ServerOptions) (st : ServerState)
    (req : Request) (res : Nat)
    (hacc : acceptHeaderOk req = true) (hct : contentTypeOk req = true)
    (hbody : req.body = .batch [])
    (hval : validateSession st req res = (true, [])) :
    handlePostRequest opts st req res =
      (st, [.writeHead res 202 [], .endResponse res]) := by
  unfold handlePostRequest
  rw [hacc, hct, hbody]
  simp [getMessages, hval]

/-- C10 (witness). -/
theorem empty_batch_accepted_witness :
    acceptHeaderOk ⟨some "application/json, text/event-stream",
      some "application/json", .single "S1", .batch []⟩ = true ∧
    handlePostRequest ⟨some "S1"⟩ ⟨true, some "S1", []⟩
      ⟨some "application/json, text/event-stream", some "application/json",
       .single "S1", .batch []⟩ 8 =
      (⟨true, some "S1", []⟩, [.writeHead 8 202 [], .endResponse 8]) :=
  ⟨by decide,
   empty_batch_accepted ⟨some "S1"⟩ ⟨true, some "S1", []⟩
     ⟨some "application/json, text/event-stream", some "application/json",
      .single "S1", .batch []⟩ 8 (by decide) (by decide) rfl (by decide)⟩


/-!
SSE codec lemmas: the split on the two-character delimiter composes across
chunk boundaries, which gives the codec its chunking invariance.
-/

theorem consHead_ne_nil (c : Char) (ss : List (List Char)) : consHead c ss ≠ [] := by
  cases ss <;> simp [consHead]

theorem splitEvents_ne_nil : ∀ l : List Char, splitEvents l ≠ []
  | [] => by simp [splitEvents]
  | [c] => by simp [splitEvents]
  | c :: d :: rest => by
      rw [splitEvents]
      split
      · exact List.cons_ne_nil _ _
      · exact consHead_ne_nil _ _

theorem splitEvents_singleton : ∀ (l q : List Char), splitEvents l = [q] → q = l
  | [], q, h => by
      simp only [splitEvents, List.cons.injEq] at h
      exact h.1.symm
  | [c], q, h => by
      simp only [splitEvents, List.cons.injEq] at h
      exact h.1.symm
  | c :: d :: rest, q, h => by
      rw [splitEvents] at h
      split at h
      · have h2 : splitEvents rest = [] := by
          simpa using congrArg List.tail h
        exact absurd h2 (splitEvents_ne_nil rest)
      · rcases hs : splitEvents (d :: rest) with _ | ⟨s, ss⟩
        · exact absurd hs (splitEvents_ne_nil _)
        · rw [hs] at h
          simp only [consHead, List.cons.injEq] at h
          have hsd : s = d :: rest := splitEvents_singleton (d :: rest) s (by rw [hs, h.2])
          rw [← h.1, hsd]

theorem dropLast_append_ne {α : Type} (xs ys : List α) (h : ys ≠ []) :
    (xs ++ ys).dropLast = xs ++ ys.dropLast := by
  cases ys with
  | nil => exact absurd rfl h
  | cons b l => exact List.dropLast_append_cons

theorem getLastD_append_ne {α : Type} (xs ys : List α) (d : α) (h : ys ≠ []) :
    (xs ++ ys).getLastD d = ys.getLastD d := by
  rw [List.getLastD_eq_getLast?, List.getLastD_eq_getLast?,
    List.getLast?_append_of_ne_nil xs h]

theorem splitEvents_append : ∀ (a b : List Char),
    splitEvents (a ++ b) =
      (splitEvents a).dropLast ++ splitEvents ((splitEvents a).getLastD [] ++ b)
  | [], b => by simp [splitEvents]
  | [c], b => by simp [splitEvents]
  | c :: d :: rest, b => by
      rcases hb : (c = '\n' && d = '\n') with _ | _
      · have hne := splitEvents_ne_nil (d :: rest)
        have ih := splitEvents_append (d :: rest) b
        rw [List.cons_append] at ih
        have e1 : splitEvents (c :: d :: (rest ++ b)) =
            consHead c (splitEvents (d :: (rest ++ b))) := by
          rw [splitEvents, hb]
          rfl
        have e2 : splitEvents (c :: d :: rest) = consHead c (splitEvents (d :: rest)) := by
          rw [splitEvents, hb]
          rfl
        rw [List.cons_append, List.cons_append, e1, e2, ih]
        rcases hq : splitEvents (d :: rest) with _ | ⟨s, ss⟩
        · exact absurd hq hne
        · rcases ss with _ | ⟨s2, ss2⟩
          · have hsd : s = d :: rest := splitEvents_singleton (d :: rest) s hq
            rw [show consHead c [s] = [c :: s] from rfl]
            simp only [List.dropLast_single,
              show ([s] : List (List Char)).getLastD [] = s from rfl,
              show ([c :: s] : List (List Char)).getLastD [] = c :: s from rfl,
              List.nil_append]
            subst hsd
            simp only [List.cons_append]
            rw [e1]
          · have h2 : (s2 :: ss2 : List (List Char)) ≠ [] := List.cons_ne_nil _ _
            simp only [consHead]
            rw [show ((c :: s) :: s2 :: ss2 : List (List Char)) =
                  [c :: s] ++ s2 :: ss2 from rfl,
                show (s :: s2 :: ss2 : List (List Char)) = [s] ++ s2 :: ss2 from rfl,
                dropLast_append_ne _ _ h2, dropLast_append_ne _ _ h2,
                getLastD_append_ne _ _ _ h2, getLastD_append_ne _ _ _ h2]
            simp [consHead]
      · have hne := splitEvents_ne_nil rest
        have ih := splitEvents_append rest b
        have e1 : splitEvents (c :: d :: (rest ++ b)) = [] :: splitEvents (rest ++ b) := by
          rw [splitEvents, hb]
          rfl
        have e2 : splitEvents (c :: d :: rest) = [] :: splitEvents rest := by
          rw [splitEvents, hb]
          rfl
        rw [List.cons_append, List.cons_append, e1, e2, ih]
        rw [show ([] :: splitEvents rest : List (List Char)) = [[]] ++ splitEvents rest from rfl,
            dropLast_append_ne _ _ hne, getLastD_append_ne _ _ _ hne]
        simp

theorem processEvent_buffer (s : SseState) (x e : List Char) :
    processEvent { s with buffer := x } e = { processEvent s e with buffer := x } := by
  unfold processEvent
  rcases hid : (parseSseLines (splitLines e)).id with _ | i <;>
    rcases hd : (parseSseLines (splitLines e)).data with _ | d <;>
    simp only [hid, hd] <;> split_ifs <;> rfl

theorem foldl_processEvent_buffer (evs : List (List Char)) (s : SseState) (x : List Char) :
    List.foldl processEvent { s with buffer := x } evs =
      { List.foldl processEvent s evs with buffer := x } := by
  induction evs generalizing s with
  | nil => rfl
  | cons e evs ih =>
      rw [List.foldl_cons, List.foldl_cons, processEvent_buffer, ih]

theorem feedChunk_append (st : SseState) (a b : List Char) :
    feedChunk (feedChunk st a) b = feedChunk st (a ++ b) := by
  have hQ := splitEvents_ne_nil ((splitEvents (st.buffer ++ a)).getLastD [] ++ b)
  unfold feedChunk
  simp only []
  rw [foldl_processEvent_buffer]
  rw [show st.buffer ++ (a ++ b) = (st.buffer ++ a) ++ b from by simp,
      splitEvents_append (st.buffer ++ a) b,
      dropLast_append_ne _ _ hQ, getLastD_append_ne _ _ _ hQ, List.foldl_append]

theorem feedChunks_cons_eq : ∀ (cs : List (List Char)) (st : SseState) (c : List Char),
    feedChunks (feedChunk st c) cs = feedChunk st (c ++ cs.flatten)
  | [], st, c => by simp [feedChunks]
  | c2 :: cs, st, c => by
      show feedChunks (feedChunk (feedChunk st c) c2) cs = _
      rw [feedChunk_append, feedChunks_cons_eq cs st (c ++ c2)]
      simp


/-!
Newline bookkeeping for frames, line splitting, and trimming.
-/

theorem hasNN_append_no_nl : ∀ (a b : List Char), '\n' ∉ a → hasNN (a ++ b) = hasNN b
  | [], _, _ => rfl
  | [c], b, h => by
      have hc : c ≠ '\n' := by
        intro e
        exact h (by rw [e]; exact List.mem_singleton.mpr rfl)
      cases b with
      | nil => rfl
      | cons e bs =>
          show hasNN (c :: e :: bs) = hasNN (e :: bs)
          simp [hasNN, hc]
  | c :: d :: rest, b, h => by
      have h1 : '\n' ∉ (d :: rest) := fun hm => h (List.mem_cons_of_mem c hm)
      have hc : c ≠ '\n' := by
        intro e
        exact h (by rw [e]; exact List.mem_cons_self _ _)
      calc hasNN ((c :: d :: rest) ++ b)
      _ = ((decide (c = '\n') && decide (d = '\n')) || hasNN ((d :: rest) ++ b)) := rfl
      _ = hasNN ((d :: rest) ++ b) := by simp [hc]
      _ = hasNN b := hasNN_append_no_nl (d :: rest) b h1

theorem hasNN_no_nl (l : List Char) (h : '\n' ∉ l) : hasNN l = false := by
  have h2 := hasNN_append_no_nl l [] h
  simpa using h2

theorem hasNN_nl_cons (b : List Char) (x : Char) (xs : List Char)
    (hb : b = x :: xs) (hx : x ≠ '\n') (h : hasNN b = false) :
    hasNN ('\n' :: b) = false := by
  subst hb
  show ((decide ('\n' = '\n') && decide (x = '\n')) || hasNN (x :: xs)) = false
  simp [hx, h]

theorem splitEvents_terminated : ∀ (l : List Char), hasNN (l ++ ['\n']) = false →
    splitEvents (l ++ ['\n', '\n']) = [l, []]
  | [], _ => rfl
  | [c], h => by
      have hc : c ≠ '\n' := by
        intro e
        rw [e] at h
        simp [hasNN] at h
      show splitEvents (c :: '\n' :: ['\n']) = [[c], []]
      simp [splitEvents, hc, consHead]
  | c :: d :: rest, h => by
      have hstep : hasNN ((c :: d :: rest) ++ ['\n']) =
          ((decide (c = '\n') && decide (d = '\n')) || hasNN ((d :: rest) ++ ['\n'])) := rfl
      rw [hstep, Bool.or_eq_false_iff] at h
      have ih := splitEvents_terminated (d :: rest) h.2
      show splitEvents (c :: d :: (rest ++ ['\n', '\n'])) = [c :: d :: rest, []]
      rw [show splitEvents (c :: d :: (rest ++ ['\n', '\n'])) =
            if (c = '\n' && d = '\n') then [] :: splitEvents (rest ++ ['\n', '\n'])
            else consHead c (splitEvents (d :: (rest ++ ['\n', '\n']))) from by
          rw [splitEvents]]
      rw [if_neg (by simp [h.1])]
      rw [show (d :: (rest ++ ['\n', '\n']) : List Char) = (d :: rest) ++ ['\n', '\n'] from by simp]
      rw [ih]
      rfl

theorem splitLines_no_nl : ∀ (l : List Char), '\n' ∉ l → splitLines l = [l]
  | [], _ => rfl
  | c :: rest, h => by
      have hc : c ≠ '\n' := by
        intro e
        exact h (by rw [e]; exact List.mem_cons_self _ _)
      have h1 : '\n' ∉ rest := fun hm => h (List.mem_cons_of_mem c hm)
      rw [show splitLines (c :: rest) =
            if c = '\n' then [] :: splitLines rest else consHead c (splitLines rest) from by
          rw [splitLines]]
      rw [if_neg hc, splitLines_no_nl rest h1]
      rfl

theorem splitLines_append_nl : ∀ (x z : List Char), '\n' ∉ x →
    splitLines (x ++ '\n' :: z) = x :: splitLines z
  | [], z, _ => by
      show splitLines ('\n' :: z) = [] :: splitLines z
      rw [show splitLines ('\n' :: z) =
            if '\n' = '\n' then [] :: splitLines z else consHead '\n' (splitLines z) from by
          rw [splitLines]]
      rw [if_pos rfl]
  | c :: x, z, h => by
      have hc : c ≠ '\n' := by
        intro e
        exact h (by rw [e]; exact List.mem_cons_self _ _)
      have h1 : '\n' ∉ x := fun hm => h (List.mem_cons_of_mem c hm)
      show splitLines (c :: (x ++ '\n' :: z)) = (c :: x) :: splitLines z
      rw [show splitLines (c :: (x ++ '\n' :: z)) =
            if c = '\n' then [] :: splitLines (x ++ '\n' :: z)
            else consHead c (splitLines (x ++ '\n' :: z)) from by
          rw [splitLines]]
      rw [if_neg hc, splitLines_append_nl x z h1]
      rfl

theorem trimChars_ws_cons (c : Char) (l : List Char) (h : isWsChar c = true) :
    trimChars (c :: l) = trimChars l := by
  simp [trimChars, List.dropWhile_cons, h]

theorem trimChars_decomposition (v : List Char) :
    ∃ p s, v = p ++ trimChars v ++ s ∧ p.all isWsChar = true ∧ s.all isWsChar = true := by
  refine ⟨v.takeWhile isWsChar,
    ((v.dropWhile isWsChar).reverse.takeWhile isWsChar).reverse, ?_, ?_, ?_⟩
  · conv_lhs => rw [← List.takeWhile_append_dropWhile (p := isWsChar) (l := v)]
    rw [List.append_assoc]
    congr 1
    calc v.dropWhile isWsChar
    _ = (v.dropWhile isWsChar).reverse.reverse := (List.reverse_reverse _).symm
    _ = (((v.dropWhile isWsChar).reverse.takeWhile isWsChar) ++
          ((v.dropWhile isWsChar).reverse.dropWhile isWsChar)).reverse := by
        rw [List.takeWhile_append_dropWhile]
    _ = trimChars v ++ ((v.dropWhile isWsChar).reverse.takeWhile isWsChar).reverse := by
        rw [List.reverse_append]
        rfl
  · rw [List.all_eq_true]
    intro a ha
    exact List.mem_takeWhile_imp ha
  · rw [List.all_eq_true]
    intro a ha
    exact List.mem_takeWhile_imp (List.mem_reverse.mp ha)


theorem onMessages_append (a b : List ServerEvent) :
    onMessages (a ++ b) = onMessages a ++ onMessages b := by
  simp [onMessages]

theorem onMessages_map_onMessage (ms : List JSONRPCMessage) :
    onMessages (ms.map ServerEvent.onMessage) = ms := by
  induction ms with
  | nil => rfl
  | cons m t ih => simp only [List.map_cons, onMessages, List.filterMap_cons] at ih ⊢; simp [ih]

theorem onMessages_mapInsert (ids : List RequestId) :
    onMessages (ids.map ServerEvent.mapInsert) = [] := by
  induction ids with
  | nil => rfl
  | cons i t ih => simp only [List.map_cons, onMessages, List.filterMap_cons] at ih ⊢; simp [ih]

theorem hasRequests_of_not_onlyNR (ms : List JSONRPCMessage)
    (hall : ms.all (fun m => (m.method.isSome && m.id.isNone) || (m.hasResult || m.hasError)) = false)
    (hs : ∀ m ∈ ms, schemaOk m = true) : ms.any isRequest = true := by
  by_contra hno
  rw [Bool.not_eq_true, List.any_eq_false] at hno
  have hall2 : ms.all
      (fun m => (m.method.isSome && m.id.isNone) || (m.hasResult || m.hasError)) = true := by
    rw [List.all_eq_true]
    intro m hm
    have h1 := hs m hm
    have h2 := hno m hm
    rcases m with ⟨mth, mid, r, e⟩
    cases mth <;> cases mid <;> cases r <;> cases e <;> simp_all [isRequest, schemaOk]
  rw [hall2] at hall
  cases hall

/-- C7: the SSE codec is chunking-invariant: feeding any partition of a
character stream chunk by chunk produces exactly the same codec state - the
same sequence of `data` payloads delivered to `JSON.parse`/`onmessage`, the
same final `lastEventId`, and the same remaining buffer - as feeding the whole
stream as a single chunk.  (The byte-to-character decoding below this boundary
is the platform `TextDecoder` in streaming mode.) -/
theorem sse_chunking_invariant (chunks : List (List Char)) :
    feedChunks initSse chunks = feedChunk initSse chunks.flatten := by
  cases chunks with
  | nil => rfl
  | cons c cs =>
      show feedChunks (feedChunk initSse c) cs = feedChunk initSse (c :: cs).flatten
      rw [List.flatten_cons]
      exact feedChunks_cons_eq cs initSse c

/-- C9 (counterexample): for the SSE line `data:  hi ` (two spaces after the
colon, one trailing space) the claim prescribes the value ` hi ` (strip the
prefix and at most one leading space, preserving the rest), but the code
computes `line.slice(5).trim()` and delivers `hi`. -/
theorem data_line_trimmed_counterexample :
    (feedChunk initSse "data:  hi \n\n".toList).delivered = ["hi".toList] ∧
    "hi".toList ≠ " hi ".toList := by
  refine ⟨by decide, by decide⟩

/-- C9 (amended): for a line beginning with `id:`, `event:` or `data:` the
codec stores the remainder of the line after the prefix with ALL leading and
trailing whitespace removed (interior whitespace is preserved: the stored
value is an infix of the remainder, flanked by whitespace-only pieces), and
every line not beginning with one of the three prefixes is ignored. -/
theorem sse_line_values_trimmed :
    (∀ (f : SseFields) (v : List Char),
      parseSseLine f ("id:".toList ++ v) = { f with id := some (trimChars v) }) ∧
    (∀ (f : SseFields) (v : List Char),
      parseSseLine f ("event:".toList ++ v) = { f with eventType := some (trimChars v) }) ∧
    (∀ (f : SseFields) (v : List Char),
      parseSseLine f ("data:".toList ++ v) = { f with data := some (trimChars v) }) ∧
    (∀ (f : SseFields) (line : List Char),
      List.isPrefixOf "id:".toList line = false →
      List.isPrefixOf "event:".toList line = false →
      List.isPrefixOf "data:".toList line = false →
      parseSseLine f line = f) ∧
    (∀ v : List Char,
      ∃ p s, v = p ++ trimChars v ++ s ∧ p.all isWsChar = true ∧ s.all isWsChar = true) := by
  refine ⟨?_, ?_, ?_, ?_, trimChars_decomposition⟩
  · intro f v
    unfold parseSseLine
    rw [if_pos (by rw [show "id:".toList = ['i', 'd', ':'] from rfl]
                   simp [List.isPrefixOf, List.cons_append])]
    rw [show (("id:".toList ++ v).drop 3) = v from by
        rw [show "id:".toList = ['i', 'd', ':'] from rfl]; simp]
  · intro f v
    unfold parseSseLine
    rw [if_neg (by rw [show "id:".toList = ['i', 'd', ':'] from rfl,
                       show "event:".toList = 'e' :: "vent:".toList from rfl]
                   simp [List.isPrefixOf, List.cons_append])]
    rw [if_pos (by rw [show "event:".toList = ['e', 'v', 'e', 'n', 't', ':'] from rfl]
                   simp [List.isPrefixOf, List.cons_append])]
    rw [show (("event:".toList ++ v).drop 6) = v from by
        rw [show "event:".toList = ['e', 'v', 'e', 'n', 't', ':'] from rfl]; simp]
  · intro f v
    unfold parseSseLine
    rw [if_neg (by rw [show "id:".toList = ['i', 'd', ':'] from rfl,
                       show "data:".toList = 'd' :: "ata:".toList from rfl]
                   simp [List.isPrefixOf, List.cons_append])]
    rw [if_neg (by rw [show "event:".toList = 'e' :: "vent:".toList from rfl,
                       show "data:".toList = 'd' :: "ata:".toList from rfl]
                   simp [List.isPrefixOf, List.cons_append])]
    rw [if_pos (by rw [show "data:".toList = ['d', 'a', 't', 'a', ':'] from rfl]
                   simp [List.isPrefixOf, List.cons_append])]
    rw [show (("data:".toList ++ v).drop 5) = v from by
        rw [show "data:".toList = ['d', 'a', 't', 'a', ':'] from rfl]; simp]
  · intro f line h1 h2 h3
    unfold parseSseLine
    simp only [h1, h2, h3, Bool.false_eq_true, if_false]


/-- The client codec, fed the exact SSE frame `send` emits for a message whose
JSON serialization is `j`, recovers `j` itself as the single delivered `data`
payload (JSON.stringify output never contains a raw newline and is
trim-invariant). -/
theorem frame_decodes (j : List Char)
    (hnl : '\n' ∉ j) (hne : j ≠ []) (htrim : trimChars j = j) :
    feedChunk initSse (sseFrame j) = ⟨[], none, [j]⟩ := by
  have hA : ('\n' : Char) ∉ "event: message".toList := by decide
  have hBj : ('\n' : Char) ∉ ("data: ".toList ++ j) := by
    intro hm
    rcases List.mem_append.mp hm with h | h
    · revert h; decide
    · exact hnl h
  have hsplit : (("event: message\ndata: ".toList ++ j)) ++ ['\n'] =
      "event: message".toList ++ '\n' :: (("data: ".toList ++ j) ++ ['\n']) := by
    rw [show "event: message\ndata: ".toList =
          "event: message".toList ++ '\n' :: "data: ".toList from rfl]
    simp
  have hsegNN : hasNN (("event: message\ndata: ".toList ++ j) ++ ['\n']) = false := by
    rw [hsplit, hasNN_append_no_nl _ _ hA]
    refine hasNN_nl_cons _ 'd' (("ata: ".toList ++ j) ++ ['\n']) ?_ (by decide) ?_
    · rw [show "data: ".toList = 'd' :: "ata: ".toList from rfl]
      simp
    · rw [hasNN_append_no_nl _ _ hBj]
      rfl
  have hsplit2 : splitEvents (("event: message\ndata: ".toList ++ j) ++ ['\n', '\n']) =
      [("event: message\ndata: ".toList ++ j), []] := splitEvents_terminated _ hsegNN
  have hfeed : feedChunk initSse (sseFrame j) =
      { processEvent initSse ("event: message\ndata: ".toList ++ j) with buffer := [] } := by
    unfold feedChunk
    rw [show initSse.buffer ++ sseFrame j =
          ("event: message\ndata: ".toList ++ j) ++ ['\n', '\n'] from by
        show sseFrame j = _
        rfl]
    rw [hsplit2]
    rfl
  have hlines : splitLines ("event: message\ndata: ".toList ++ j) =
      ["event: message".toList, "data: ".toList ++ j] := by
    rw [show "event: message\ndata: ".toList ++ j =
          "event: message".toList ++ '\n' :: ("data: ".toList ++ j) from by
        rw [show "event: message\ndata: ".toList =
              "event: message".toList ++ '\n' :: "data: ".toList from rfl]
        simp]
    rw [splitLines_append_nl _ _ hA, splitLines_no_nl _ hBj]
  have hid : List.isPrefixOf "id:".toList ("data: ".toList ++ j) = false := by
    rw [show "data: ".toList = 'd' :: "ata: ".toList from rfl]
    simp [List.isPrefixOf]
  have hev : List.isPrefixOf "event:".toList ("data: ".toList ++ j) = false := by
    rw [show "data: ".toList = 'd' :: "ata: ".toList from rfl]
    simp [List.isPrefixOf]
  have hda : List.isPrefixOf "data:".toList ("data: ".toList ++ j) = true := by
    rw [show "data: ".toList = 'd' :: 'a' :: 't' :: 'a' :: ':' :: [' '] from rfl]
    simp [List.isPrefixOf]
  have hdrop : (("data: ".toList ++ j).drop 5) = ' ' :: j := by
    rw [show "data: ".toList = 'd' :: 'a' :: 't' :: 'a' :: ':' :: [' '] from rfl]
    simp
  have hfields : parseSseLines ["event: message".toList, "data: ".toList ++ j] =
      ⟨none, some ("message".toList), some j⟩ := by
    show parseSseLine (parseSseLine ⟨none, none, none⟩ ("event: message".toList))
        ("data: ".toList ++ j) = _
    rw [show parseSseLine ⟨none, none, none⟩ ("event: message".toList) =
          ⟨none, some ("message".toList), none⟩ from by decide]
    unfold parseSseLine
    simp only [hid, hev, hda, Bool.false_eq_true, if_false, if_true]
    rw [hdrop, trimChars_ws_cons ' ' j (by decide), htrim]
  have hje : j.isEmpty = false := by
    cases j with
    | nil => exact absurd rfl hne
    | cons a l => rfl
  rw [hfeed]
  unfold processEvent
  rw [hlines, hfields]
  simp only [hje, Bool.false_eq_true, if_false]
  rw [if_pos (by simp)]
  rfl

/-- A POST whose body decodes to the (schema-valid, non-initialize) messages
`ms` delivers exactly `ms`, in order, to the server's `onmessage`. -/
theorem post_delivers_messages (opts : ServerOptions) (st : ServerState)
    (req : Request) (res : Nat) (ms : List JSONRPCMessage)
    (hacc : acceptHeaderOk req = true) (hct : contentTypeOk req = true)
    (hbody : getMessages req.body = some ms)
    (hnoinit : ms.any (fun m => m.method = some "initialize") = false)
    (hval : validateSession st req res = (true, []))
    (hschema : ∀ m ∈ ms, schemaOk m = true) :
    onMessages (handlePostRequest opts st req res).2 = ms := by
  by_cases honly : ms.all
      (fun m => (m.method.isSome && m.id.isNone) || (m.hasResult || m.hasError)) = true
  · have hmain : handlePostRequest opts st req res =
        (st, [.writeHead res 202 [], .endResponse res] ++ ms.map .onMessage) := by
      unfold handlePostRequest
      rw [hacc, hct, hbody]
      simp only [Bool.not_true, Bool.false_eq_true, if_false]
      rw [if_neg (by simp [hnoinit]), hval]
      simp only [Bool.not_true, Bool.false_eq_true, if_false, honly, if_true]
    rw [hmain]
    simp only [onMessages_append, onMessages_map_onMessage]
    simp [onMessages]
  · rw [Bool.not_eq_true] at honly
    have hreqs := hasRequests_of_not_onlyNR ms honly hschema
    have hmain : handlePostRequest opts st req res =
        ({ st with sseResponseMapping :=
             (requestIds ms).foldl (fun mp i => mapSet mp i res) st.sseResponseMapping },
         [.writeHead res 200 (sseHeaders st)] ++
           (requestIds ms).map .mapInsert ++ ms.map .onMessage) := by
      unfold handlePostRequest
      rw [hacc, hct, hbody]
      simp only [Bool.not_true, Bool.false_eq_true, if_false]
      rw [if_neg (by simp [hnoinit]), hval]
      simp only [Bool.not_true, Bool.false_eq_true, if_false, honly, hreqs, if_true]
    rw [hmain]
    simp only [onMessages_append, onMessages_mapInsert, onMessages_map_onMessage]
    simp [onMessages]

/-- C8: round trip at the transport boundary.  Server to client: the SSE frame
`event: message\ndata: <j>\n\n` written by server `send` for a message with
JSON text `j` is decoded by the client's SSE stream handler into exactly one
delivery whose payload is the identical string `j`, with no event id recorded -
so the message handed to the client's `onmessage` is
`JSONRPCMessageSchema.parse(JSON.parse(j))`, the sent message modulo JSON
canonicalization.  Client to server: a POST body that decodes to the messages
`ms` (as the body `JSON.stringify` of the submitted message(s) does, modulo
canonicalization) is delivered to the server's `onmessage` as exactly `ms`, in
order. -/
theorem transport_roundtrip (j : List Char)
    (hnl : '\n' ∉ j) (hne : j ≠ []) (htrim : trimChars j = j)
    (opts : ServerOptions) (st : ServerState) (req : Request) (res : Nat)
    (ms : List JSONRPCMessage)
    (hacc : acceptHeaderOk req = true) (hct : contentTypeOk req = true)
    (hbody : getMessages req.body = some ms)
    (hnoinit : ms.any (fun m => m.method = some "initialize") = false)
    (hval : validateSession st req res = (true, []))
    (hschema : ∀ m ∈ ms, schemaOk m = true) :
    feedChunk initSse (sseFrame j) = ⟨[], none, [j]⟩ ∧
    onMessages (handlePostRequest opts st req res).2 = ms :=
  ⟨frame_decodes j hnl hne htrim,
   post_delivers_messages opts st req res ms hacc hct hbody hnoinit hval hschema⟩

/-- C8 (witness). -/
theorem transport_roundtrip_witness :
    trimChars "0".toList = "0".toList ∧
    (feedChunk initSse (sseFrame "0".toList) = ⟨[], none, ["0".toList]⟩ ∧
     onMessages
       (handlePostRequest ⟨some "S1"⟩ ⟨true, some "S1", []⟩
         ⟨some "application/json, text/event-stream", some "application/json",
          .single "S1", .single ⟨some "ping", some (.num 2), false, false⟩⟩ 9).2
       = [⟨some "ping", some (.num 2), false, false⟩]) :=
  ⟨by decide,
   transport_roundtrip "0".toList (by decide) (by decide) (by decide)
     ⟨some "S1"⟩ ⟨true, some "S1", []⟩
     ⟨some "application/json, text/event-stream", some "application/json",
      .single "S1", .single ⟨some "ping", some (.num 2), false, false⟩⟩ 9
     [⟨some "ping", some (.num 2), false, false⟩]
     (by decide) (by decide) rfl (by decide) (by decide) (by decide)⟩


/-- C9 (witness for the amended theorem): a data line with interior and
flanking whitespace, and an ignored comment line. -/
theorem sse_line_values_trimmed_witness :
    parseSseLine ⟨none, none, none⟩ ("data:".toList ++ " a b ".toList)
      = { (⟨none, none, none⟩ : SseFields) with data := some (trimChars " a b ".toList) } ∧
    parseSseLine ⟨none, none, none⟩ (": comment".toList) = ⟨none, none, none⟩ :=
  ⟨sse_line_values_trimmed.2.2.1 ⟨none, none, none⟩ (" a b ".toList),
   sse_line_values_trimmed.2.2.2.1 ⟨none, none, none⟩ (": comment".toList)
     (by decide) (by decide) (by decide)⟩

end MCP
